import Mathlib

/-!
Verification of the blase3D grid-interpolation and spectrum-reconstruction
pipeline (`experiments/10_end_to_end/10_end_to_end.py`).

Modelling conventions, used throughout:
* Python/numpy floating-point numbers are modelled as exact rationals `ℚ`.
  Not-a-number (NaN) is modelled by `Option ℚ` (`none` = NaN); `np.nan_to_num`
  with `nan=1` becomes `Option.getD 1`.  No demo value overflows or produces
  infinities, so IEEE infinity is not modelled.
* A Python exception is an `Except PyError` result.  `PyError` carries the
  exception kinds raised by the numpy/pandas/scipy calls in the source; it
  also carries the three error kinds named by the specification (which the
  source never raises) so that claims about them can be stated.
* A row 4-vector is `(amp, sigma, gamma, shift_center)`, in the column order
  `df_line[['amp', 'sigma', 'gamma', 'shift_center']]` of the source.
-/

/-- A stellar-parameter grid point `(teff, logg, Z)`. -/
abbrev Point3 : Type := ℚ × ℚ × ℚ

/-- An interpolated per-line 4-vector `(amp, sigma, gamma, shift_center)`. -/
abbrev Vec4 : Type := ℚ × ℚ × ℚ × ℚ

/-- Exception kinds.  `valueError` / `indexError` model the Python exceptions
the embedded code actually raises (`np.vstack` of an empty list, pandas
`explode` length mismatch, scipy out-of-bounds query, numpy reshape failure,
indexing a 0-d scalar).  The last three constructors are the error kinds named
by the specification (section 7); the source defines no such classes and the
embedded code never produces them — they exist so claims about them can be
stated and refuted. -/
inductive PyError where
  | valueError (msg : String)
  | indexError
  | malformedGridPointError
  | emptyLineSetError
  | irregularGridError
deriving DecidableEq, Repr

instance {ε α : Type} [DecidableEq ε] [DecidableEq α] : DecidableEq (Except ε α) := by
  intro a b
  cases a with
  | error e =>
    cases b with
    | error e2 => exact decidable_of_iff (e = e2) (by simp)
    | ok v2 => exact isFalse (by simp)
  | ok v =>
    cases b with
    | error e2 => exact isFalse (by simp)
    | ok v2 => exact decidable_of_iff (v = v2) (by simp)

/-- Sequential effectful map over a list in the `Except` monad, modelling a
Python loop or comprehension that can raise: it stops at the first raise. -/
def eMapM {α β : Type} (f : α → Except PyError β) : List α → Except PyError (List β)
  | [] => Except.ok []
  | a :: l => do
    let b ← f a
    let bs ← eMapM f l
    Except.ok (b :: bs)

/-- One ingested grid-point state, the row `read_state_dicts` builds per file
(`10_end_to_end.py` lines 20-33): the grid coordinates parsed from the file
name and the five parallel per-line parameter arrays. -/
structure RawPoint where
  teff : ℚ
  logg : ℚ
  Z : ℚ
  center : List ℚ
  shift_center : List ℚ
  amp : List ℚ
  sigma : List ℚ
  gamma : List ℚ
deriving DecidableEq, Repr

/-- One exploded row of the line-parameter table: one (grid point, line) pair
(the long format produced by `df.explode` in `pickling_run`, line 58). -/
structure LineRow where
  teff : ℚ
  logg : ℚ
  Z : ℚ
  center : ℚ
  shift_center : ℚ
  amp : ℚ
  sigma : ℚ
  gamma : ℚ
deriving DecidableEq, Repr

/-- Zip the five parallel per-line arrays of one grid point into rows. -/
def zipRows (t g z : ℚ) : List ℚ → List ℚ → List ℚ → List ℚ → List ℚ → List LineRow
  | c :: cr, sc :: scr, a :: ar, s :: sr, ga :: gar =>
    ⟨t, g, z, c, sc, a, s, ga⟩ :: zipRows t g z cr scr ar sr gar
  | _, _, _, _, _ => []

/-- Explode one grid point's arrays into rows.  Pandas `DataFrame.explode`
with several columns raises `ValueError("columns must have matching element
counts")` when the listed columns of a row have different lengths
(`pickling_run`, line 58); the source performs no earlier validation. -/
def explodeRow (r : RawPoint) : Except PyError (List LineRow) :=
  if r.shift_center.length = r.center.length ∧ r.amp.length = r.center.length
      ∧ r.sigma.length = r.center.length ∧ r.gamma.length = r.center.length then
    Except.ok (zipRows r.teff r.logg r.Z r.center r.shift_center r.amp r.sigma r.gamma)
  else Except.error (PyError.valueError "columns must have matching element counts")

/-- `df.explode([...])` over the whole ingested table (`pickling_run`,
line 58): one row per (grid point, line), grid points in ingest order; the
pandas call raises for the whole frame if any grid point's arrays mismatch. -/
def explode (raws : List RawPoint) : Except PyError (List LineRow) := do
  let ls ← eMapM explodeRow raws
  Except.ok ls.flatten

/-- The grid-coordinate key of a table row (`['teff', 'logg', 'Z']`). -/
def keyOf (r : LineRow) : Point3 := (r.teff, r.logg, r.Z)

/-- A row whose joined values were all missing: `fillna(-1000)` fills every
NaN column produced by the right merge (`create_interpolators`, line 44) —
the four parameter columns and also `center`. -/
def sentinelRow (p : Point3) : LineRow :=
  ⟨p.1, p.2.1, p.2.2, -1000, -1000, -1000, -1000, -1000⟩

/-- `df.query('center == @line').merge(df_gp, how='right', on=['teff', 'logg',
'Z']).fillna(-1000)` (`create_interpolators`, line 44), for an already
center-filtered row list `lr`: the output keeps the right frame's (observed
grid point) order; a grid point with no matching line rows yields a single
sentinel-filled row, otherwise its matching rows in table order. -/
def mergeRightFill (lr : List LineRow) : List Point3 → List LineRow
  | [] => []
  | p :: ps =>
    (match lr.filter (fun r => keyOf r = p) with
      | [] => [sentinelRow p]
      | ms => ms) ++ mergeRightFill lr ps

/-- Ascending lexicographic comparison on `(teff, logg, Z)`, the sort key of
`df_line.sort_values(['teff', 'logg', 'Z'])` (`create_interpolators`,
line 45). -/
def rowLe (r s : LineRow) : Prop :=
  r.teff < s.teff ∨ (r.teff = s.teff ∧
    (r.logg < s.logg ∨ (r.logg = s.logg ∧ r.Z ≤ s.Z)))

instance : DecidableRel rowLe := by
  intro r s
  unfold rowLe
  infer_instance

instance : IsTotal LineRow rowLe := by
  constructor
  intro a b
  unfold rowLe
  rcases lt_trichotomy a.teff b.teff with h | h | h
  · exact Or.inl (Or.inl h)
  · rcases lt_trichotomy a.logg b.logg with h2 | h2 | h2
    · exact Or.inl (Or.inr ⟨h, Or.inl h2⟩)
    · rcases le_total a.Z b.Z with h3 | h3
      · exact Or.inl (Or.inr ⟨h, Or.inr ⟨h2, h3⟩⟩)
      · exact Or.inr (Or.inr ⟨h.symm, Or.inr ⟨h2.symm, h3⟩⟩)
    · exact Or.inr (Or.inr ⟨h.symm, Or.inl h2⟩)
  · exact Or.inr (Or.inl h)

instance : IsTrans LineRow rowLe := by
  constructor
  intro a b c hab hbc
  unfold rowLe at *
  rcases hab with h1 | ⟨e1, h1⟩
  · rcases hbc with h2 | ⟨e2, _⟩
    · exact Or.inl (h1.trans h2)
    · exact Or.inl (e2 ▸ h1)
  · rcases hbc with h2 | ⟨e2, h2⟩
    · exact Or.inl (e1 ▸ h2)
    · refine Or.inr ⟨e1.trans e2, ?_⟩
      rcases h1 with h1 | ⟨f1, h1⟩
      · rcases h2 with h2 | ⟨f2, _⟩
        · exact Or.inl (h1.trans h2)
        · exact Or.inl (f2 ▸ h1)
      · rcases h2 with h2 | ⟨f2, h2⟩
        · exact Or.inl (f1 ▸ h2)
        · exact Or.inr ⟨f1.trans f2, h1.trans h2⟩

/-- The sorted joined table for one line identity: filter the exploded table
to the line's rows, right-merge onto the observed grid points, fill holes
with the sentinel, sort by `(teff, logg, Z)` ascending (`create_interpolators`,
lines 44-45; `sort_values` does not promise stability, and any comparison
sort agrees with insertion sort up to ties of the full key). -/
def sortedJoin (rows : List LineRow) (gp : List Point3) (c : ℚ) : List LineRow :=
  List.insertionSort rowLe (mergeRightFill (rows.filter fun r => r.center = c) gp)

/-- First-occurrence-order distinct values, the semantics of pandas
`Series.unique` (`create_interpolators`, lines 47-48); `seen` accumulates the
values already emitted. -/
def pdUniqueGo : List ℚ → List ℚ → List ℚ
  | [], _ => []
  | x :: rest, seen =>
    if x ∈ seen then pdUniqueGo rest seen else x :: pdUniqueGo rest (x :: seen)

/-- `Series.unique`: distinct values in order of first appearance. -/
def pdUnique (l : List ℚ) : List ℚ := pdUniqueGo l []

/-- `df_line.teff.unique()` on the sorted joined table. -/
def axesT (rows : List LineRow) (gp : List Point3) (c : ℚ) : List ℚ :=
  pdUnique ((sortedJoin rows gp c).map LineRow.teff)

/-- `df_line.logg.unique()` on the sorted joined table. -/
def axesG (rows : List LineRow) (gp : List Point3) (c : ℚ) : List ℚ :=
  pdUnique ((sortedJoin rows gp c).map LineRow.logg)

/-- `df_line.Z.unique()` on the sorted joined table. -/
def axesZ (rows : List LineRow) (gp : List Point3) (c : ℚ) : List ℚ :=
  pdUnique ((sortedJoin rows gp c).map LineRow.Z)

/-- The four interpolated channels of a row, in the column order
`df_line[['amp', 'sigma', 'gamma', 'shift_center']]` (line 48). -/
def rowVec (r : LineRow) : Vec4 := (r.amp, r.sigma, r.gamma, r.shift_center)

/-- A built `RegularGridInterpolator`: the three strictly ascending axes and
the node values in row-major (teff-major, then logg, then Z) order — exactly
the flattened layout that `.to_numpy().reshape(nT, nG, nZ, 4)` stores. -/
structure Interp where
  xs : List ℚ
  ys : List ℚ
  zs : List ℚ
  vals : List Vec4
deriving DecidableEq, Repr

/-- Build one line's interpolator (`create_interpolators`, lines 44-49).
The first guard is numpy's `reshape(nT, nG, nZ, 4)`, which raises unless the
row count is exactly `nT * nG * nZ`; the second is scipy's
`RegularGridInterpolator` axis validation (each axis nonempty and strictly
monotonic — strictly descending axes also pass scipy's check, but they can
never reach the reshape guard here because the rows were sorted ascending, so
ascending-only is checked). -/
def create_interpolator (rows : List LineRow) (gp : List Point3) (c : ℚ) :
    Except PyError Interp :=
  if (sortedJoin rows gp c).length
      = (axesT rows gp c).length * ((axesG rows gp c).length * (axesZ rows gp c).length) then
    if (axesT rows gp c) ≠ [] ∧ (axesG rows gp c) ≠ [] ∧ (axesZ rows gp c) ≠ []
        ∧ (axesT rows gp c).Pairwise (fun a b => a < b)
        ∧ (axesG rows gp c).Pairwise (fun a b => a < b)
        ∧ (axesZ rows gp c).Pairwise (fun a b => a < b) then
      Except.ok
        ⟨axesT rows gp c, axesG rows gp c, axesZ rows gp c,
          (sortedJoin rows gp c).map rowVec⟩
    else
      Except.error
        (PyError.valueError "The points in each dimension must be strictly ascending or descending")
  else Except.error (PyError.valueError "cannot reshape array")

/-- Number of table rows carrying a given line identity (`value_counts`). -/
def centerCount (rows : List LineRow) (c : ℚ) : Nat :=
  (rows.filter fun r => r.center = c).length

/-- `df.value_counts('center').index`: the distinct line identities ordered
by decreasing row count (tie order between equal counts is not promised by
pandas; none of the verified claims depends on the bank's list order). -/
def centersByFreq (rows : List LineRow) : List ℚ :=
  List.insertionSort (fun a b => centerCount rows b ≤ centerCount rows a)
    (pdUnique (rows.map LineRow.center))

/-- `create_interpolators` (lines 41-50): one interpolator per distinct line
identity; a failed build aborts the whole bank. -/
def create_interpolators (rows : List LineRow) (gp : List Point3) :
    Except PyError (List Interp) :=
  eMapM (create_interpolator rows gp) (centersByFreq rows)

/-- Scipy's bounds check (`bounds_error=True`, the default): a coordinate
outside `[axis.min, axis.max]` raises. -/
def inBounds (knots : List ℚ) (x : ℚ) : Prop :=
  knots.head?.getD 0 ≤ x ∧ x ≤ knots.getLast?.getD 0

instance (knots : List ℚ) (x : ℚ) : Decidable (inBounds knots x) := by
  unfold inBounds
  infer_instance

/-- Scipy `_find_indices` for one axis: `i = clip(searchsorted(knots, x) - 1,
0, n - 2)` and the normalised distance `(x - knots[i]) / (knots[i+1] -
knots[i])`; for a sorted axis `searchsorted(..., side='left')` is the count
of knots below `x`.  An axis with a single knot contributes index 0 and
weight 0 (scipy's degenerate-axis handling). -/
def findCell (knots : List ℚ) (x : ℚ) : Nat × ℚ :=
  if knots.length ≤ 1 then (0, 0)
  else
    let s := (knots.filter fun y => y < x).length
    let i := min (s - 1) (knots.length - 2)
    (i, (x - knots.getD i 0) / (knots.getD (i + 1) 0 - knots.getD i 0))

/-- The node value at 3-D index `(a, b, c)` of the row-major value array.
Out-of-range accesses return a dummy; in `trilinear` they only ever occur with
weight 0 (on the clipped upper corner of a boundary cell). -/
def cellVal (I : Interp) (a b c : Nat) : Vec4 :=
  I.vals.getD (a * (I.ys.length * I.zs.length) + b * I.zs.length + c) (0, 0, 0, 0)

/-- Scipy `_evaluate_linear`: the weighted sum of the 2³ corner values of the
cell found for the query point (trilinear interpolation). -/
def trilinear (I : Interp) (ct cg cz : Nat × ℚ) : Vec4 :=
  ((1 - ct.2) * (1 - cg.2) * (1 - cz.2)) • cellVal I ct.1 cg.1 cz.1 +
  ((1 - ct.2) * (1 - cg.2) * cz.2) • cellVal I ct.1 cg.1 (cz.1 + 1) +
  ((1 - ct.2) * cg.2 * (1 - cz.2)) • cellVal I ct.1 (cg.1 + 1) cz.1 +
  ((1 - ct.2) * cg.2 * cz.2) • cellVal I ct.1 (cg.1 + 1) (cz.1 + 1) +
  (ct.2 * (1 - cg.2) * (1 - cz.2)) • cellVal I (ct.1 + 1) cg.1 cz.1 +
  (ct.2 * (1 - cg.2) * cz.2) • cellVal I (ct.1 + 1) cg.1 (cz.1 + 1) +
  (ct.2 * cg.2 * (1 - cz.2)) • cellVal I (ct.1 + 1) (cg.1 + 1) cz.1 +
  (ct.2 * cg.2 * cz.2) • cellVal I (ct.1 + 1) (cg.1 + 1) (cz.1 + 1)

/-- `interpolator(point)` for a single query point: scipy raises a
`ValueError` when the point is outside the grid bounds, otherwise returns the
trilinear interpolant (exactly the 4-vector numpy array the Python call
yields after `.squeeze()`). -/
def Interp.eval (I : Interp) (p : Point3) : Except PyError Vec4 :=
  if inBounds I.xs p.1 ∧ inBounds I.ys p.2.1 ∧ inBounds I.zs p.2.2 then
    Except.ok (trilinear I (findCell I.xs p.1) (findCell I.ys p.2.1) (findCell I.zs p.2.2))
  else Except.error (PyError.valueError "One of the requested xi is out of bounds")

/-- Modelled from the spec: the Lorentzian line profile of the external
emulator.  `SparseLinearEmulator` is imported from `blase.emulator` but is
absent from the sources provided; `PhoenixEmulator.lorentzian_line`
(`src/blase/emulator.py`, lines 113-120) gives the profile
`amplitude / 3.141592654 * width / (width² + (wavelength - center)²)`.
In floating point the profile is NaN exactly when numerator and denominator
both vanish, i.e. when `width = 0` and the wavelength sits on the center;
`none` models that NaN. -/
def lorentzian_line (lam_center width amplitude w : ℚ) : Option ℚ :=
  if width = 0 ∧ w = lam_center then none
  else some (amplitude / 3.141592654 * width / (width ^ 2 + (w - lam_center) ^ 2))

/-- Addition of possibly-NaN values; NaN propagates through a float sum. -/
def optAdd : Option ℚ → Option ℚ → Option ℚ
  | some x, some y => some (x + y)
  | _, _ => none

/-- Sum of possibly-NaN values. -/
def optSum : List (Option ℚ) → Option ℚ
  | [] => some 0
  | o :: rest => optAdd o (optSum rest)

/-- Modelled from the spec: the Emulator Forward Model
(`SparseLinearEmulator(wl_native=.., init_state_dict=..).forward()`, absent
from the provided sources).  Per the spec (sections 1 and 6) it consumes the
reconstructed state — the list of `(amp, sigma, gamma, shift_center)`
4-vectors — plus the wavelength grid, and returns one flux value per
wavelength: the continuum minus the sum of the per-line Lorentzian profiles,
following `PhoenixEmulator.forward` (`src/blase/emulator.py`, lines 49-68)
with unit continuum; `gamma` is the Lorentzian width and `shift_center` the
line center.  The claims verified here use only that it is a fixed function
of the state and wavelength grid, produces one value per wavelength, and can
produce NaN. -/
def SLE_forward (state : List Vec4) (wl : List ℚ) : List (Option ℚ) :=
  wl.map fun w =>
    (optSum (state.map fun v => lorentzian_line v.2.2.2 v.2.2.1 v.1 w)).map fun s => 1 - s

/-- `np.nan_to_num(flux, nan=1)` (lines 75 and 91): every NaN becomes the
continuum baseline 1; finite values pass through (no demo value is infinite,
so the `posinf` / `neginf` replacement of `nan_to_num` never fires). -/
def nan_to_num (flux : List (Option ℚ)) : List ℚ := flux.map fun o => o.getD 1

/-- `reconstruct1` (lines 67-75): evaluate every interpolator of the bank at
the point (any out-of-bounds query raises), keep the results whose first
channel (`amp`) differs from the sentinel −1000, stack them (`np.vstack` of
an empty list raises `ValueError("need at least one array to concatenate")`),
run the forward model, and replace NaN by 1. -/
def reconstruct1 (wl_grid : List ℚ) (point : Point3) (interpolator_list : List Interp) :
    Except PyError (List ℚ) := do
  let rs ← eMapM (fun itp => itp.eval point) interpolator_list
  let output := rs.filter fun r => r.1 ≠ -1000
  if output.isEmpty then
    Except.error (PyError.valueError "need at least one array to concatenate")
  else Except.ok (nan_to_num (SLE_forward output wl_grid))

/-- The interpolator loop of `reconstructn` (lines 78-83): for each
interpolator, evaluate it on the whole batch, then distribute the per-point
results whose first channel exceeds −100 onto the per-point accumulators.
`.squeeze()` on the `(n, 4)` result collapses the point axis as well when
`n = 1`, so iterating then yields the four scalar channels and `r[0]` raises
an `IndexError` — the singleton-batch failure. -/
def gatherLoop (points : List Point3) : List Interp → Except PyError (List (List Vec4))
  | [] => Except.ok (points.map fun _ => [])
  | itp :: rest => do
    let rs ← eMapM (fun p => itp.eval p) points
    if points.length == 1 then Except.error PyError.indexError
    else do
      let tails ← gatherLoop points rest
      Except.ok (List.zipWith (fun r tail => if (-100 : ℚ) < r.1 then r :: tail else tail) rs tails)

/-- `reconstructn` (lines 77-91): gather per-point surviving lines with the
batch threshold (first channel > −100), stack each point's lines
independently (`np.vstack` raises on an empty accumulator), run the forward
model per point, stack the flux rows in input order, and replace NaN by 1. -/
def reconstructn (wl_grid : List ℚ) (points : List Point3) (interpolator_list : List Interp) :
    Except PyError (List (List ℚ)) := do
  let raw ← gatherLoop points interpolator_list
  let outputs ← eMapM
    (fun l => if l.isEmpty then
        Except.error (PyError.valueError "need at least one array to concatenate")
      else Except.ok l) raw
  let fluxes := outputs.map fun st => nan_to_num (SLE_forward st wl_grid)
  if fluxes.isEmpty then
    Except.error (PyError.valueError "need at least one array to concatenate")
  else Except.ok fluxes

/-- The squared loss of `rms_loss` (lines 93-94): the mean of the squared
pointwise differences between the reconstructed and observed flux.  The loss
the source returns is its square root (`** 0.5`), an irrational number in
general; the claim theorem states the loss via `Real.sqrt` of this value.
Numpy broadcasting raises when the two arrays have different lengths. -/
def rms_loss_sq (wl_grid data : List ℚ) (interpolator_list : List Interp) (point : Point3) :
    Except PyError ℚ := do
  let flux ← reconstruct1 wl_grid point interpolator_list
  if flux.length = data.length then
    Except.ok ((((flux.zip data).map fun q => (q.1 - q.2) ^ 2).sum) / (data.length : ℚ))
  else Except.error (PyError.valueError "operands could not be broadcast together")

/-- The value of a successful interpolator evaluation (partial inverse of
`Except.ok`, used to state theorems under an all-evaluations-succeed
hypothesis). -/
def evalV (itp : Interp) (p : Point3) : Vec4 := (itp.eval p).toOption.getD (0, 0, 0, 0)

/-- The lines surviving `reconstruct1`'s filter at a query point: every
bank entry's interpolated 4-vector whose first channel differs from the
sentinel −1000 exactly (line 68). -/
def survivors1 (bank : List Interp) (q : Point3) : List Vec4 :=
  (bank.filterMap fun itp => (itp.eval q).toOption).filter fun r => r.1 ≠ -1000

/-- The lines surviving `reconstructn`'s per-point filter: every bank entry's
interpolated 4-vector whose first channel is strictly greater than −100
(line 82) — the looser batch threshold. -/
def survivorsN (bank : List Interp) (q : Point3) : List Vec4 :=
  (bank.filterMap fun itp => (itp.eval q).toOption).filter fun r => (-100 : ℚ) < r.1

/-- Fully "spec-side" variant of the join (specification section 4.2 word for
word, for the refinement comparison of claim C4): the line's rows are
right-outer-joined onto the full Cartesian set of grid coordinates — every
combination of distinct `teff`, `logg`, `Z` values observed anywhere in the
grid — so that every combination gets a row. -/
def pairAll (x : ℚ) : List ℚ → List ℚ → List Point3
  | [], _ => []
  | y :: ys, zs => (zs.map fun z => (x, y, z)) ++ pairAll x ys zs

/-- Cartesian product of the three axis value lists, in lexicographic
(teff-major) order. -/
def cartProd : List ℚ → List ℚ → List ℚ → List Point3
  | [], _, _ => []
  | x :: xs, ys, zs => pairAll x ys zs ++ cartProd xs ys zs

/-- The row a grid coordinate receives from the join: the line's (first)
matching table row where the line was fitted there, otherwise the
sentinel-filled row. -/
def joinRowFor (lr : List LineRow) (p : Point3) : LineRow :=
  match lr.filter (fun r => keyOf r = p) with
  | [] => sentinelRow p
  | r :: _ => r

/-- The join as claim C4 describes it (spec section 4.2): onto the Cartesian
product of the distinct coordinate values observed anywhere in the grid. -/
def mergeRightCartesianSpec (lr : List LineRow) (gp : List Point3) : List LineRow :=
  (cartProd (pdUnique (gp.map fun p => p.1)) (pdUnique (gp.map fun p => p.2.1))
    (pdUnique (gp.map fun p => p.2.2))).map (joinRowFor lr)

/-- Demo interpolator: a 2×2×2 grid over axes `{0, 1}` whose node value is
everywhere `(2, 1, 1, 5)` — a line of amplitude 2, widths 1, center 5. -/
def itpA : Interp :=
  ⟨[0, 1], [0, 1], [0, 1],
    [(2, 1, 1, 5), (2, 1, 1, 5), (2, 1, 1, 5), (2, 1, 1, 5),
     (2, 1, 1, 5), (2, 1, 1, 5), (2, 1, 1, 5), (2, 1, 1, 5)]⟩

/-- Demo interpolator whose amplitude is the literal `3.141592654` of the
Lorentzian profile, so that demo fluxes stay small rationals. -/
def itpB : Interp :=
  ⟨[0, 1], [0, 1], [0, 1],
    [(3.141592654, 1, 1, 5), (3.141592654, 1, 1, 5), (3.141592654, 1, 1, 5),
     (3.141592654, 1, 1, 5), (3.141592654, 1, 1, 5), (3.141592654, 1, 1, 5),
     (3.141592654, 1, 1, 5), (3.141592654, 1, 1, 5)]⟩

/-- Demo interpolator filled with the sentinel: a line absent from the whole
grid region. -/
def itpS : Interp :=
  ⟨[0, 1], [0, 1], [0, 1],
    [(-1000, -1000, -1000, -1000), (-1000, -1000, -1000, -1000),
     (-1000, -1000, -1000, -1000), (-1000, -1000, -1000, -1000),
     (-1000, -1000, -1000, -1000), (-1000, -1000, -1000, -1000),
     (-1000, -1000, -1000, -1000), (-1000, -1000, -1000, -1000)]⟩

/-- Demo wavelength grid. -/
def demoWl : List ℚ := [4, 5]

/-- Demo query point, a node of the demo interpolators' grids. -/
def demoP : Point3 := (0, 0, 0)

/-- Demo exploded table for the builder claims: one line (center 100) fitted
at the grid point `(5000, 4, 0)` only. -/
def lrD : List LineRow := [⟨5000, 4, 0, 100, 101, 7, 1, 2⟩]

/-- Demo observed grid points whose coordinate sets are NOT Cartesian: the
combinations `(5000, 5, 0)` and `(6000, 4, 0)` are never observed. -/
def gpD : List Point3 := [(5000, 4, 0), (6000, 5, 0)]

/-- Demo observed grid: a full 2×1×1 grid. -/
def gpE : List Point3 := [(5000, 4, 0), (6000, 4, 0)]

/-- Demo raw grid point whose per-line arrays have mismatched lengths. -/
def badRaw : RawPoint := ⟨1, 2, 3, [10, 20], [10], [1], [1], [1]⟩

/-- Second demo query point, the opposite corner of the demo grids. -/
def demoP2 : Point3 := (1, 1, 1)

/-- The interpolator that `create_interpolator lrD gpE 100` builds: axes
`[5000, 6000] x [4] x [0]`, the fitted node value at `(5000, 4, 0)` and the
sentinel fill at `(6000, 4, 0)`. -/
def demoItp : Interp :=
  ⟨[5000, 6000], [4], [0], [(7, 1, 2, 101), (-1000, -1000, -1000, -1000)]⟩

/-- Demo raw grid point with consistent array lengths. -/
def goodRaw : RawPoint := ⟨4, 5, 6, [10, 20], [11, 21], [1, 2], [1, 1], [2, 2]⟩

/-- Strict ascending lexicographic order on grid coordinates. -/
def keyLt (p q : Point3) : Prop :=
  p.1 < q.1 ∨ (p.1 = q.1 ∧ (p.2.1 < q.2.1 ∨ (p.2.1 = q.2.1 ∧ p.2.2 < q.2.2)))

/-- Strict ascending lexicographic order on table rows by their grid key. -/
def rowLt (r s : LineRow) : Prop := keyLt (keyOf r) (keyOf s)

instance : IsAntisymm LineRow rowLt := by
  constructor
  intro a b h1 h2
  exfalso
  unfold rowLt keyLt at h1 h2
  rcases h1 with h1 | ⟨e1, h1⟩ <;> rcases h2 with h2 | ⟨e2, h2⟩
  · exact absurd h1 (not_lt.mpr (le_of_lt h2))
  · rw [e2] at h1
    exact lt_irrefl _ h1
  · rw [e1] at h2
    exact lt_irrefl _ h2
  · rcases h1 with h1 | ⟨f1, h1⟩ <;> rcases h2 with h2 | ⟨f2, h2⟩
    · exact absurd h1 (not_lt.mpr (le_of_lt h2))
    · rw [f2] at h1
      exact lt_irrefl _ h1
    · rw [f1] at h2
      exact lt_irrefl _ h2
    · exact absurd h1 (not_lt.mpr (le_of_lt h2))

/-! ### General helper lemmas -/

theorem bindOk {α β : Type} (a : α) (k : α → Except PyError β) :
    (do let b ← Except.ok a; k b) = k a := rfl

theorem bindErr {α β : Type} (e : PyError) (k : α → Except PyError β) :
    (do let b ← (Except.error e : Except PyError α); k b) = Except.error e := rfl

theorem toOptionOk {α : Type} (a : α) : (Except.ok a : Except PyError α).toOption = some a := rfl

theorem toOptionErr {α : Type} (e : PyError) :
    (Except.error e : Except PyError α).toOption = none := rfl

theorem except_ok_of_isSome {α : Type} (e : Except PyError α) (d : α)
    (h : e.toOption.isSome = true) : e = Except.ok (e.toOption.getD d) := by
  cases e with
  | error er => simp [toOptionErr] at h
  | ok v => simp [toOptionOk]

theorem eMapM_map_ok {α β : Type} (f : α → Except PyError β) (g : α → β) (l : List α)
    (h : ∀ a ∈ l, f a = Except.ok (g a)) : eMapM f l = Except.ok (l.map g) := by
  induction l with
  | nil => rfl
  | cons a t ih =>
    have ha : f a = Except.ok (g a) := h a (by simp)
    have ht : eMapM f t = Except.ok (t.map g) := ih fun b hb => h b (by simp [hb])
    simp [eMapM, ha, ht, bindOk]

theorem eMapM_error_of_mem {α β : Type} (f : α → Except PyError β) (l : List α) (e : PyError)
    (hone : ∀ a, (∃ v, f a = Except.ok v) ∨ f a = Except.error e)
    (hbad : ∃ a ∈ l, f a = Except.error e) :
    eMapM f l = Except.error e := by
  induction l with
  | nil => simp at hbad
  | cons a t ih =>
    cases hfa : f a with
    | error er =>
      have he : er = e := by
        rcases hone a with ⟨v, hv⟩ | h
        · rw [hfa] at hv
          exact absurd hv (by simp)
        · rw [hfa] at h
          exact Except.error.inj h
      simp [eMapM, hfa, bindErr, he]
    | ok b =>
      rcases hbad with ⟨x, hx, hex⟩
      have hxt : x ∈ t := by
        rcases List.mem_cons.mp hx with h | h
        · rw [h] at hex
          rw [hex] at hfa
          exact absurd hfa (by simp)
        · exact h
      have ht : eMapM f t = Except.error e := ih ⟨x, hxt, hex⟩
      simp [eMapM, hfa, bindOk, ht, bindErr]

theorem zipWith_map_same {α β γ δ : Type} (f : β → γ → δ) (g : α → β) (h : α → γ) (l : List α) :
    List.zipWith f (l.map g) (l.map h) = l.map fun a => f (g a) (h a) := by
  induction l with
  | nil => rfl
  | cons a t ih => simp [ih]

theorem filterMap_toOption_eq_map (bank : List Interp) (q : Point3)
    (hok : ∀ itp ∈ bank, (itp.eval q).toOption.isSome = true) :
    (bank.filterMap fun itp => (itp.eval q).toOption) = bank.map fun itp => evalV itp q := by
  induction bank with
  | nil => rfl
  | cons itp rest ih =>
    have h1 : (itp.eval q).toOption = some (evalV itp q) := by
      have := hok itp (by simp)
      cases he : (itp.eval q).toOption with
      | none => rw [he] at this; simp at this
      | some v => simp [evalV, he]
    simp only [List.filterMap_cons, List.map_cons, h1]
    rw [ih fun i hi => hok i (by simp [hi])]

/-! ### Pipeline lemmas for `reconstruct1` and `reconstructn` -/

theorem reconstruct1_pipeline (wl : List ℚ) (p : Point3) (bank : List Interp)
    (hok : ∀ itp ∈ bank, ((itp.eval p).toOption.isSome : Bool) = true)
    (hne : survivors1 bank p ≠ []) :
    reconstruct1 wl p bank = Except.ok (nan_to_num (SLE_forward (survivors1 bank p) wl)) := by
  have hm : eMapM (fun itp => itp.eval p) bank = Except.ok (bank.map fun itp => evalV itp p) :=
    eMapM_map_ok _ _ _ fun a ha => except_ok_of_isSome _ _ (hok a ha)
  have hs : survivors1 bank p
      = (bank.map fun itp => evalV itp p).filter fun r => r.1 ≠ -1000 := by
    unfold survivors1
    rw [filterMap_toOption_eq_map bank p hok]
  unfold reconstruct1
  rw [hm, bindOk]
  have hempty : (((bank.map fun itp => evalV itp p).filter fun r => r.1 ≠ -1000).isEmpty) = false := by
    rw [← hs]
    cases hc : survivors1 bank p with
    | nil => exact absurd hc hne
    | cons a t => simp
  simp only [hempty, Bool.false_eq_true, if_false, hs]

theorem reconstruct1_empty_vstack (wl : List ℚ) (p : Point3) (bank : List Interp)
    (hok : ∀ itp ∈ bank, ((itp.eval p).toOption.isSome : Bool) = true)
    (hall : survivors1 bank p = []) :
    reconstruct1 wl p bank
      = Except.error (PyError.valueError "need at least one array to concatenate") := by
  have hm : eMapM (fun itp => itp.eval p) bank = Except.ok (bank.map fun itp => evalV itp p) :=
    eMapM_map_ok _ _ _ fun a ha => except_ok_of_isSome _ _ (hok a ha)
  have hs : ((bank.map fun itp => evalV itp p).filter fun r => r.1 ≠ -1000) = [] := by
    rw [← hall]
    unfold survivors1
    rw [filterMap_toOption_eq_map bank p hok]
  unfold reconstruct1
  rw [hm, bindOk]
  simp only [hs, List.isEmpty_nil, if_true]

theorem eMapM_ok_forall {α β : Type} (f : α → Except PyError β) (l : List α) (rs : List β)
    (hm : eMapM f l = Except.ok rs) : ∀ a ∈ l, ∃ v, f a = Except.ok v := by
  induction l generalizing rs with
  | nil =>
    intro a ha
    simp at ha
  | cons b t ih =>
    intro a ha
    rw [show eMapM f (b :: t)
        = do { let v ← f b; let vs ← eMapM f t; Except.ok (v :: vs) } from rfl] at hm
    cases he : f b with
    | error e =>
      rw [he, bindErr] at hm
      exact absurd hm (by simp)
    | ok v =>
      rw [he, bindOk] at hm
      cases ht : eMapM f t with
      | error e2 =>
        rw [ht, bindErr] at hm
        exact absurd hm (by simp)
      | ok vs =>
        rcases List.mem_cons.mp ha with hh | hh
        · exact hh ▸ ⟨v, he⟩
        · exact ih vs ht a hh

theorem reconstruct1_ok_evals (wl : List ℚ) (p : Point3) (bank : List Interp)
    (h : ((reconstruct1 wl p bank).toOption.isSome : Bool) = true) :
    bank ≠ [] ∧ ∀ itp ∈ bank, ∃ v, itp.eval p = Except.ok v := by
  cases hm : eMapM (fun itp => itp.eval p) bank with
  | error e =>
    unfold reconstruct1 at h
    rw [hm, bindErr] at h
    simp [toOptionErr] at h
  | ok rs =>
    refine ⟨?_, eMapM_ok_forall _ _ _ hm⟩
    intro hb
    subst hb
    have hrs : rs = [] := (Except.ok.inj hm.symm)
    subst hrs
    unfold reconstruct1 at h
    rw [hm, bindOk] at h
    simp [toOptionErr] at h

theorem survivorsN_cons (itp : Interp) (rest : List Interp) (q : Point3)
    (hsome : (itp.eval q).toOption = some (evalV itp q)) :
    survivorsN (itp :: rest) q
      = if (-100 : ℚ) < (evalV itp q).1 then evalV itp q :: survivorsN rest q
        else survivorsN rest q := by
  unfold survivorsN
  simp only [List.filterMap_cons, hsome, List.filter_cons]
  by_cases hcond : (-100 : ℚ) < (evalV itp q).1 <;> simp [hcond]

theorem gatherLoop_eq (points : List Point3) (bank : List Interp)
    (hlen : points.length ≠ 1)
    (hok : ∀ itp ∈ bank, ∀ q ∈ points, ((itp.eval q).toOption.isSome : Bool) = true) :
    gatherLoop points bank = Except.ok (points.map fun q => survivorsN bank q) := by
  induction bank with
  | nil => simp [gatherLoop, survivorsN]
  | cons itp rest ih =>
    have hm : eMapM (fun q => itp.eval q) points
        = Except.ok (points.map fun q => evalV itp q) :=
      eMapM_map_ok _ _ _ fun q hq => except_ok_of_isSome _ _ (hok itp (by simp) q hq)
    have hbeq : (points.length == 1) = false := by
      simp only [beq_eq_false_iff_ne]
      exact hlen
    have ht : gatherLoop points rest = Except.ok (points.map fun q => survivorsN rest q) :=
      ih fun i hi q hq => hok i (by simp [hi]) q hq
    show (do
      let rs ← eMapM (fun p => itp.eval p) points
      if points.length == 1 then Except.error PyError.indexError
      else do
        let tails ← gatherLoop points rest
        Except.ok (List.zipWith (fun (r : Vec4) (tail : List Vec4) => if (-100 : ℚ) < r.1 then r :: tail else tail)
          rs tails)) = _
    rw [hm, bindOk, hbeq]
    simp only [Bool.false_eq_true, if_false]
    rw [ht, bindOk, zipWith_map_same]
    congr 1
    apply List.map_congr_left
    intro q hq
    exact (survivorsN_cons itp rest q (by
      have := hok itp (by simp) q hq
      cases he : (itp.eval q).toOption with
      | none => rw [he] at this; simp at this
      | some v => simp [evalV, he])).symm

theorem reconstructn_pipeline (wl : List ℚ) (points : List Point3) (bank : List Interp)
    (hlen : 2 ≤ points.length)
    (hok : ∀ itp ∈ bank, ∀ q ∈ points, ((itp.eval q).toOption.isSome : Bool) = true)
    (hne : ∀ q ∈ points, survivorsN bank q ≠ []) :
    reconstructn wl points bank
      = Except.ok (points.map fun q => nan_to_num (SLE_forward (survivorsN bank q) wl)) := by
  have h1 : points.length ≠ 1 := by omega
  have hg := gatherLoop_eq points bank h1 hok
  unfold reconstructn
  rw [hg, bindOk]
  have hout : eMapM
      (fun l => if l.isEmpty then
          Except.error (PyError.valueError "need at least one array to concatenate")
        else Except.ok l)
      (points.map fun q => survivorsN bank q)
      = Except.ok ((points.map fun q => survivorsN bank q).map id) := by
    apply eMapM_map_ok
    intro a ha
    rcases List.mem_map.mp ha with ⟨q, hq, rfl⟩
    have hq2 := hne q hq
    have : ((survivorsN bank q).isEmpty) = false := by
      cases hc : survivorsN bank q with
      | nil => exact absurd hc hq2
      | cons x t => simp
    simp only [this, Bool.false_eq_true, if_false, id]
  rw [hout, List.map_id, bindOk, List.map_map]
  have hpne : ((points.map fun q =>
      nan_to_num (SLE_forward (survivorsN bank q) wl)).isEmpty) = false := by
    cases points with
    | nil => simp at hlen
    | cons a t => simp
  simp only [Function.comp_def, hpne, Bool.false_eq_true, if_false]

theorem reconstructn_singleton_err (wl : List ℚ) (p : Point3) (bank : List Interp)
    (h : ((reconstruct1 wl p bank).toOption.isSome : Bool) = true) :
    reconstructn wl [p] bank = Except.error PyError.indexError := by
  obtain ⟨hbne, hev⟩ := reconstruct1_ok_evals wl p bank h
  cases bank with
  | nil => exact absurd rfl hbne
  | cons itp rest =>
    obtain ⟨v, hv⟩ := hev itp (by simp)
    have hm : eMapM (fun q => itp.eval q) [p] = Except.ok [v] := by
      show (do
        let b ← itp.eval p
        let bs ← eMapM (fun q => Interp.eval q p) []
        Except.ok (b :: bs)) = _
      rw [hv, bindOk]
      rfl
    have hg : gatherLoop [p] (itp :: rest) = Except.error PyError.indexError := by
      show (do
        let rs ← eMapM (fun q => itp.eval q) [p]
        if ([p] : List Point3).length == 1 then Except.error PyError.indexError
        else do
          let tails ← gatherLoop [p] rest
          Except.ok (List.zipWith
            (fun (r : Vec4) (tail : List Vec4) => if (-100 : ℚ) < r.1 then r :: tail else tail)
            rs tails)) = _
      rw [hm, bindOk]
      rfl
    unfold reconstructn
    rw [hg, bindErr]

/-! ### Demo evaluation lemmas -/

theorem itpA_evalP : itpA.eval demoP = Except.ok (2, 1, 1, 5) := by
  norm_num [Interp.eval, inBounds, findCell, trilinear, cellVal, itpA, demoP,
    Prod.smul_mk, smul_eq_mul, Prod.mk_add_mk]

theorem itpA_evalP2 : itpA.eval demoP2 = Except.ok (2, 1, 1, 5) := by
  norm_num [Interp.eval, inBounds, findCell, trilinear, cellVal, itpA, demoP2,
    Prod.smul_mk, smul_eq_mul, Prod.mk_add_mk]

theorem itpB_evalP : itpB.eval demoP = Except.ok (3.141592654, 1, 1, 5) := by
  norm_num [Interp.eval, inBounds, findCell, trilinear, cellVal, itpB, demoP,
    Prod.smul_mk, smul_eq_mul, Prod.mk_add_mk]

theorem itpS_evalP : itpS.eval demoP = Except.ok (-1000, -1000, -1000, -1000) := by
  norm_num [Interp.eval, inBounds, findCell, trilinear, cellVal, itpS, demoP,
    Prod.smul_mk, smul_eq_mul, Prod.mk_add_mk]

theorem survivors1_demoAS : survivors1 [itpA, itpS] demoP = [(2, 1, 1, 5)] := by
  norm_num [survivors1, itpA_evalP, itpS_evalP, toOptionOk, List.filterMap_cons]

theorem survivors1_demoS : survivors1 [itpS] demoP = [] := by
  norm_num [survivors1, itpS_evalP, toOptionOk, List.filterMap_cons]

theorem survivorsN_demoA : survivorsN [itpA] demoP = [(2, 1, 1, 5)] := by
  norm_num [survivorsN, itpA_evalP, toOptionOk, List.filterMap_cons]

theorem survivorsN_demoA2 : survivorsN [itpA] demoP2 = [(2, 1, 1, 5)] := by
  norm_num [survivorsN, itpA_evalP2, toOptionOk, List.filterMap_cons]

theorem reconstruct1_demoB : reconstruct1 demoWl demoP [itpB] = Except.ok [1/2, 0] := by
  norm_num [reconstruct1, eMapM, itpB_evalP, bindOk, demoWl, SLE_forward, nan_to_num,
    lorentzian_line, optSum, optAdd]

theorem reconstruct1_demoA_isSome :
    ((reconstruct1 demoWl demoP [itpA]).toOption.isSome : Bool) = true := by
  norm_num [reconstruct1, eMapM, itpA_evalP, bindOk, toOptionOk]

theorem rms_loss_sq_demoB : rms_loss_sq demoWl [1, 1] [itpB] demoP = Except.ok (5/8) := by
  rw [rms_loss_sq, reconstruct1_demoB, bindOk]
  norm_num [demoWl]

/-! ### Claim theorems -/

/-- Claim C1, counterexample: at the in-bounds demo point, `reconstruct1`
produces a flux array while `reconstructn` on the one-element batch holding
the same point raises an `IndexError` (the squeeze collapses the point axis),
so the two paths do not produce equal flux arrays. -/
theorem reconstruct_single_vs_batch_cex :
    ((reconstruct1 demoWl demoP [itpA]).toOption.isSome : Bool) = true
    ∧ reconstructn demoWl [demoP] [itpA] = Except.error PyError.indexError := by
  constructor
  · exact reconstruct1_demoA_isSome
  · norm_num [reconstructn, gatherLoop, eMapM, itpA_evalP, bindOk, bindErr]

/-- Claim C1 (amended): whenever `reconstruct1` succeeds at a point, the
batch path applied to the one-element batch containing that point fails (the
squeezed result drops the point axis and the per-point indexing raises), so
it never returns a flux matrix at all — in particular the two paths never
produce equal flux arrays for a one-element batch. -/
theorem reconstruct_batch_singleton_never_ok (wl : List ℚ) (p : Point3) (bank : List Interp)
    (h : ((reconstruct1 wl p bank).toOption.isSome : Bool) = true) :
    ((reconstructn wl [p] bank).toOption.isSome : Bool) = false := by
  rw [reconstructn_singleton_err wl p bank h]
  simp [toOptionErr]

/-- Witness for C1's amended theorem at the demo inputs. -/
theorem reconstruct_batch_singleton_never_ok_wit :
    ((reconstructn demoWl [demoP] [itpA]).toOption.isSome : Bool) = false :=
  reconstruct_batch_singleton_never_ok demoWl demoP [itpA] reconstruct1_demoA_isSome

/-- Claim C2: when every interpolator evaluates at the in-bounds point and at
least one line survives, `reconstruct1` keeps exactly the interpolated
4-vectors whose first channel (amplitude) is not exactly −1000, stacks them
into the emulator state, evaluates the forward model, and replaces every NaN
in the flux by 1 before returning (`survivors1` is the surviving stack,
`SLE_forward` the forward pass and `nan_to_num` the NaN replacement). -/
theorem reconstructOne_filters_sentinel_stacks_forward (wl : List ℚ) (p : Point3)
    (bank : List Interp)
    (hok : ∀ itp ∈ bank, ((itp.eval p).toOption.isSome : Bool) = true)
    (hne : survivors1 bank p ≠ []) :
    reconstruct1 wl p bank = Except.ok (nan_to_num (SLE_forward (survivors1 bank p) wl)) :=
  reconstruct1_pipeline wl p bank hok hne

/-- Witness for C2 at a demo bank holding one live line and one sentinel
line. -/
theorem reconstructOne_filters_sentinel_stacks_forward_wit :
    reconstruct1 demoWl demoP [itpA, itpS]
      = Except.ok (nan_to_num (SLE_forward (survivors1 [itpA, itpS] demoP) demoWl)) :=
  reconstructOne_filters_sentinel_stacks_forward demoWl demoP [itpA, itpS]
    (by
      intro itp hmem
      rcases List.mem_cons.mp hmem with rfl | hmem2
      · simp [itpA_evalP, toOptionOk]
      rcases List.mem_cons.mp hmem2 with rfl | hmem3
      · simp [itpS_evalP, toOptionOk]
      · simp at hmem3)
    (by rw [survivors1_demoAS]; simp)

/-- Claim C3, counterexample: a batch consisting of exactly one in-bounds
point is rejected by `reconstructn` with an `IndexError` instead of yielding
the described one-row flux matrix. -/
theorem reconstructMany_singleton_cex :
    reconstructn demoWl [demoP2] [itpA] = Except.error PyError.indexError := by
  norm_num [reconstructn, gatherLoop, eMapM, itpA_evalP2, bindOk, bindErr]

/-- Claim C3 (amended): for every batch of at least two in-bounds points,
`reconstructn` includes for each point exactly the interpolated 4-vectors
whose first channel is strictly greater than −100 (`survivorsN`, the looser
batch threshold), stacks each point's survivors independently, feeds each
stack independently to the forward model, and returns one flux row per point
in input order; one-element batches instead fail (claims C1/C10). -/
theorem reconstructMany_batch_pipeline (wl : List ℚ) (points : List Point3)
    (bank : List Interp)
    (hlen : 2 ≤ points.length)
    (hok : ∀ itp ∈ bank, ∀ q ∈ points, ((itp.eval q).toOption.isSome : Bool) = true)
    (hne : ∀ q ∈ points, survivorsN bank q ≠ []) :
    reconstructn wl points bank
      = Except.ok (points.map fun q => nan_to_num (SLE_forward (survivorsN bank q) wl)) :=
  reconstructn_pipeline wl points bank hlen hok hne

/-- Witness for C3's amended theorem on a two-point batch. -/
theorem reconstructMany_batch_pipeline_wit :
    reconstructn demoWl [demoP, demoP2] [itpA]
      = Except.ok ([demoP, demoP2].map fun q =>
          nan_to_num (SLE_forward (survivorsN [itpA] q) demoWl)) :=
  reconstructMany_batch_pipeline demoWl [demoP, demoP2] [itpA]
    (by simp)
    (by
      intro itp hmem q hq
      rcases List.mem_cons.mp hmem with rfl | hmem2
      · rcases List.mem_cons.mp hq with rfl | hq2
        · simp [itpA_evalP, toOptionOk]
        rcases List.mem_cons.mp hq2 with rfl | hq3
        · simp [itpA_evalP2, toOptionOk]
        · simp at hq3
      · simp at hmem2)
    (by
      intro q hq
      rcases List.mem_cons.mp hq with rfl | hq2
      · rw [survivorsN_demoA]; simp
      rcases List.mem_cons.mp hq2 with rfl | hq3
      · rw [survivorsN_demoA2]; simp
      · simp at hq3)

/-- Claim C7: for an in-bounds query point at which at least one line
survives the filter, `reconstruct1` succeeds and its flux array has exactly
one entry per input wavelength.  The returned list lives in `ℚ` because
`nan_to_num` has already replaced every NaN (`none`) by 1, so it can contain
no NaN by construction. -/
theorem reconstructOne_length_safe (wl : List ℚ) (p : Point3) (bank : List Interp)
    (hok : ∀ itp ∈ bank, ((itp.eval p).toOption.isSome : Bool) = true)
    (hne : survivors1 bank p ≠ []) :
    ((reconstruct1 wl p bank).toOption.isSome : Bool) = true
    ∧ ((reconstruct1 wl p bank).toOption.getD []).length = wl.length := by
  have h := reconstruct1_pipeline wl p bank hok hne
  rw [h]
  refine ⟨by simp [toOptionOk], ?_⟩
  simp [toOptionOk, nan_to_num, SLE_forward]

/-- Witness for C7 at the demo bank. -/
theorem reconstructOne_length_safe_wit :
    ((reconstruct1 demoWl demoP [itpA]).toOption.isSome : Bool) = true
    ∧ ((reconstruct1 demoWl demoP [itpA]).toOption.getD []).length = demoWl.length :=
  reconstructOne_length_safe demoWl demoP [itpA]
    (by
      intro itp hmem
      rcases List.mem_cons.mp hmem with rfl | hmem2
      · simp [itpA_evalP, toOptionOk]
      · simp at hmem2)
    (by
      have : survivors1 [itpA] demoP = [(2, 1, 1, 5)] := by
        norm_num [survivors1, itpA_evalP, toOptionOk, List.filterMap_cons]
      rw [this]
      simp)

/-- Claim C9, counterexample: at a point where every interpolator answers but
no line survives the filter, `reconstruct1` raises numpy's incidental
`ValueError` from stacking an empty list — it neither raises an
`EmptyLineSetError` (no such class exists in the source) nor returns a flat
continuum. -/
theorem reconstructOne_empty_cex :
    reconstruct1 demoWl demoP [itpS]
        = Except.error (PyError.valueError "need at least one array to concatenate")
    ∧ reconstruct1 demoWl demoP [itpS] ≠ Except.error PyError.emptyLineSetError
    ∧ ((reconstruct1 demoWl demoP [itpS]).toOption.isSome : Bool) = false := by
  have h : reconstruct1 demoWl demoP [itpS]
      = Except.error (PyError.valueError "need at least one array to concatenate") := by
    norm_num [reconstruct1, eMapM, itpS_evalP, bindOk]
  refine ⟨h, ?_, ?_⟩
  · rw [h]
    simp
  · rw [h]
    simp [toOptionErr]

/-- Claim C9 (amended): when zero lines survive filtering at an in-bounds
query point, `reconstruct1` fails — but incidentally, through `np.vstack`'s
`ValueError` on the empty list, not through any explicit `EmptyLineSetError`
policy, and without a continuum fallback. -/
theorem reconstructOne_empty_fails_incidentally (wl : List ℚ) (p : Point3)
    (bank : List Interp)
    (hok : ∀ itp ∈ bank, ((itp.eval p).toOption.isSome : Bool) = true)
    (hall : survivors1 bank p = []) :
    reconstruct1 wl p bank
        = Except.error (PyError.valueError "need at least one array to concatenate")
    ∧ reconstruct1 wl p bank ≠ Except.error PyError.emptyLineSetError := by
  have h := reconstruct1_empty_vstack wl p bank hok hall
  refine ⟨h, ?_⟩
  rw [h]
  simp

/-- Witness for C9's amended theorem at the all-sentinel demo bank. -/
theorem reconstructOne_empty_fails_incidentally_wit :
    reconstruct1 demoWl demoP [itpS]
        = Except.error (PyError.valueError "need at least one array to concatenate")
    ∧ reconstruct1 demoWl demoP [itpS] ≠ Except.error PyError.emptyLineSetError :=
  reconstructOne_empty_fails_incidentally demoWl demoP [itpS]
    (by
      intro itp hmem
      rcases List.mem_cons.mp hmem with rfl | hmem2
      · simp [itpS_evalP, toOptionOk]
      · simp at hmem2)
    survivors1_demoS

/-- Claim C10: a batch of exactly one query point makes `reconstructn` fail
with an `IndexError` rather than return a one-row flux matrix — squeezing the
`(1, 4)` interpolation result collapses the point axis, so the filter indexes
scalars — even at a point where `reconstruct1` succeeds. -/
theorem reconstructMany_singleton_fails (wl : List ℚ) (p : Point3) (bank : List Interp)
    (h : ((reconstruct1 wl p bank).toOption.isSome : Bool) = true) :
    reconstructn wl [p] bank = Except.error PyError.indexError :=
  reconstructn_singleton_err wl p bank h

/-- Witness for C10 at the demo inputs. -/
theorem reconstructMany_singleton_fails_wit :
    reconstructn demoWl [demoP] [itpA] = Except.error PyError.indexError :=
  reconstructMany_singleton_fails demoWl demoP [itpA] reconstruct1_demoA_isSome

/-- Claim C6: the solver's loss at a candidate point is the root-mean-square
error between the reconstructed and observed flux.  `rms_loss_sq` is the
mean of the squared pointwise differences that the source computes before
`** 0.5`; its real square root — the returned loss — is nonnegative and
squares back to exactly that mean, i.e. it is the RMSE. -/
theorem rms_loss_is_rmse (wl data : List ℚ) (bank : List Interp) (point : Point3)
    (flux : List ℚ) (m : ℚ)
    (hf : reconstruct1 wl point bank = Except.ok flux)
    (hm : rms_loss_sq wl data bank point = Except.ok m) :
    Real.sqrt ((m : ℚ) : ℝ) ^ 2
        = (((flux.zip data).map fun q => ((q.1 : ℝ) - (q.2 : ℝ)) ^ 2).sum) / (data.length : ℝ)
    ∧ 0 ≤ Real.sqrt ((m : ℚ) : ℝ) := by
  unfold rms_loss_sq at hm
  rw [hf, bindOk] at hm
  by_cases hlen : flux.length = data.length
  case neg =>
    rw [if_neg hlen] at hm
    exact absurd hm (by simp)
  rw [if_pos hlen] at hm
  have hmv : m = (((flux.zip data).map fun q => (q.1 - q.2) ^ 2).sum) / (data.length : ℚ) :=
    (Except.ok.inj hm).symm
  have hnn : (0 : ℚ) ≤ m := by
    rw [hmv]
    apply div_nonneg
    · apply List.sum_nonneg
      intro x hx
      rcases List.mem_map.mp hx with ⟨q, hq, rfl⟩
      positivity
    · positivity
  refine ⟨?_, Real.sqrt_nonneg _⟩
  rw [Real.sq_sqrt (by exact_mod_cast hnn), hmv]
  push_cast
  congr 1
  rw [List.map_map]
  congr 1
  apply List.map_congr_left
  intro q hq
  simp only [Function.comp_apply]
  push_cast
  ring

/-- Witness for C6 at the demo bank: flux `[1/2, 0]` against data `[1, 1]`
gives mean squared error `5/8`. -/
theorem rms_loss_is_rmse_wit :
    Real.sqrt (((5/8 : ℚ) : ℚ) : ℝ) ^ 2
        = (((([1/2, 0] : List ℚ).zip ([1, 1] : List ℚ)).map
            fun q => ((q.1 : ℝ) - (q.2 : ℝ)) ^ 2).sum) / (([1, 1] : List ℚ).length : ℝ)
    ∧ 0 ≤ Real.sqrt (((5/8 : ℚ) : ℚ) : ℝ) :=
  rms_loss_is_rmse demoWl [1, 1] [itpB] demoP [1/2, 0] (5/8)
    reconstruct1_demoB rms_loss_sq_demoB

/-- Claim C8 (amended): when any ingested grid point's five per-line arrays
have mismatched lengths, the table build fails — pandas `explode` raises its
generic `ValueError`, no `MalformedGridPointError` class exists — and the
failure aborts the entire ingest, so no table (in particular no partial table
for that grid point) is produced. -/
theorem explode_raises_on_mismatch (raws : List RawPoint)
    (hbad : ∃ r ∈ raws, ¬(r.shift_center.length = r.center.length
      ∧ r.amp.length = r.center.length ∧ r.sigma.length = r.center.length
      ∧ r.gamma.length = r.center.length)) :
    explode raws = Except.error (PyError.valueError "columns must have matching element counts")
    ∧ explode raws ≠ Except.error PyError.malformedGridPointError := by
  have hme : eMapM explodeRow raws
      = Except.error (PyError.valueError "columns must have matching element counts") := by
    apply eMapM_error_of_mem
    · intro a
      unfold explodeRow
      split
      · exact Or.inl ⟨_, rfl⟩
      · exact Or.inr rfl
    · rcases hbad with ⟨r, hr, hnr⟩
      refine ⟨r, hr, ?_⟩
      unfold explodeRow
      rw [if_neg hnr]
  have h : explode raws
      = Except.error (PyError.valueError "columns must have matching element counts") := by
    unfold explode
    rw [hme, bindErr]
  refine ⟨h, ?_⟩
  rw [h]
  simp

/-- Witness for C8's amended theorem: a well-formed grid point followed by
one with mismatched arrays. -/
theorem explode_raises_on_mismatch_wit :
    explode [goodRaw, badRaw]
        = Except.error (PyError.valueError "columns must have matching element counts")
    ∧ explode [goodRaw, badRaw] ≠ Except.error PyError.malformedGridPointError :=
  explode_raises_on_mismatch [goodRaw, badRaw]
    ⟨badRaw, by decide, by decide⟩

/-- Claim C8, counterexample: a grid point with mismatched per-line arrays
makes ingest fail with the pandas `ValueError`, not with any
`MalformedGridPointError` (the source defines no such error class). -/
theorem explode_mismatch_cex :
    explode [badRaw]
        = Except.error (PyError.valueError "columns must have matching element counts")
    ∧ explode [badRaw] ≠ Except.error PyError.malformedGridPointError := by decide

/-! ### Join lemmas (claim C4) -/

theorem mergeRightFill_eq_map (lr : List LineRow) (gp : List Point3)
    (huniq : ∀ p ∈ gp, (lr.filter fun r => keyOf r = p).length ≤ 1) :
    mergeRightFill lr gp = gp.map (joinRowFor lr) := by
  induction gp with
  | nil => rfl
  | cons p ps ih =>
    have h1 := huniq p (by simp)
    have ht := ih fun q hq => huniq q (by simp [hq])
    show (match lr.filter (fun r => keyOf r = p) with
      | [] => [sentinelRow p]
      | ms => ms) ++ mergeRightFill lr ps = joinRowFor lr p :: ps.map (joinRowFor lr)
    cases hf : lr.filter (fun r => keyOf r = p) with
    | nil =>
      rw [ht]
      show [sentinelRow p] ++ _ = _
      unfold joinRowFor
      rw [hf]
      rfl
    | cons r rest =>
      have hrest : rest = [] := by
        rw [hf] at h1
        simp at h1
        exact h1
      subst hrest
      rw [ht]
      show [r] ++ _ = _
      unfold joinRowFor
      rw [hf]
      rfl

/-- Claim C4, counterexample: with the line fitted at `(5000, 4, 0)` and the
observed grid points `{(5000, 4, 0), (6000, 5, 0)}`, the source's join
produces one row per observed grid point (2 rows) — not one row per element
of the Cartesian product of the distinct observed coordinate values (4 rows,
as the claim describes): the combination `(5000, 5, 0)` gets no row. -/
theorem builder_join_not_cartesian_cex :
    (mergeRightFill lrD gpD).length = 2
    ∧ (mergeRightCartesianSpec lrD gpD).length = 4
    ∧ ((5000 : ℚ), (5 : ℚ), (0 : ℚ)) ∉ (mergeRightFill lrD gpD).map keyOf
    ∧ ((5000 : ℚ), (5 : ℚ), (0 : ℚ)) ∈ (mergeRightCartesianSpec lrD gpD).map keyOf := by
  decide

/-- Claim C4 (amended): for every line identity, the builder right-outer-joins
the line's rows onto the list of observed grid points (`df_gp`, one row per
ingested state file) — not onto the Cartesian product of the distinct
coordinate values — so every observed grid point gets exactly one row under
the per-grid-point uniqueness invariant: the line's fitted row where present,
otherwise a row with all parameter columns filled with the sentinel −1000
(`joinRowFor`); and rows are sorted by `(teff, logg, Z)` ascending before the
reshape (`sortedJoin` is `List.Pairwise rowLe`). -/
theorem builder_joins_observed_grid (rows : List LineRow) (gp : List Point3) (c : ℚ)
    (huniq : ∀ p ∈ gp,
      ((rows.filter fun r => r.center = c).filter fun r => keyOf r = p).length ≤ 1) :
    mergeRightFill (rows.filter fun r => r.center = c) gp
        = gp.map (joinRowFor (rows.filter fun r => r.center = c))
    ∧ List.Pairwise rowLe (sortedJoin rows gp c) :=
  ⟨mergeRightFill_eq_map _ gp huniq, List.sorted_insertionSort rowLe _⟩

/-- Witness for C4's amended theorem at the demo table. -/
theorem builder_joins_observed_grid_wit :
    mergeRightFill (lrD.filter fun r => r.center = 100) gpD
        = gpD.map (joinRowFor (lrD.filter fun r => r.center = 100))
    ∧ List.Pairwise rowLe (sortedJoin lrD gpD 100) :=
  builder_joins_observed_grid lrD gpD 100 (by decide)

/-! ### Lemmas on `pdUnique` and the Cartesian grid (for claim C5) -/

theorem mem_pdUniqueGo (l : List ℚ) : ∀ (seen : List ℚ) (a : ℚ),
    a ∈ pdUniqueGo l seen ↔ a ∈ l ∧ a ∉ seen := by
  induction l with
  | nil =>
    intro seen a
    simp [pdUniqueGo]
  | cons x rest ih =>
    intro seen a
    unfold pdUniqueGo
    by_cases hx : x ∈ seen
    · rw [if_pos hx, ih]
      constructor
      · rintro ⟨ha, hs⟩
        exact ⟨List.mem_cons_of_mem x ha, hs⟩
      · rintro ⟨ha, hs⟩
        rcases List.mem_cons.mp ha with rfl | ha2
        · exact absurd hx hs
        · exact ⟨ha2, hs⟩
    · rw [if_neg hx]
      constructor
      · intro hmem
        rcases List.mem_cons.mp hmem with rfl | h2
        · exact ⟨List.mem_cons_self _ _, hx⟩
        · have h3 := (ih (x :: seen) a).mp h2
          exact ⟨List.mem_cons_of_mem x h3.1, fun hs => h3.2 (List.mem_cons_of_mem x hs)⟩
      · rintro ⟨ha, hs⟩
        rcases List.mem_cons.mp ha with rfl | ha2
        · exact List.mem_cons_self _ _
        · by_cases hax : a = x
          · subst hax
            exact List.mem_cons_self _ _
          · refine List.mem_cons_of_mem x ((ih (x :: seen) a).mpr ⟨ha2, ?_⟩)
            intro hmem2
            rcases List.mem_cons.mp hmem2 with h3 | h3
            · exact hax h3
            · exact hs h3

theorem mem_pdUnique (l : List ℚ) (a : ℚ) : a ∈ pdUnique l ↔ a ∈ l := by
  unfold pdUnique
  rw [mem_pdUniqueGo]
  simp

theorem pairAll_length (x : ℚ) (ys zs : List ℚ) :
    (pairAll x ys zs).length = ys.length * zs.length := by
  induction ys with
  | nil => simp [pairAll]
  | cons y yt ih =>
    show ((zs.map fun z => (x, y, z)) ++ pairAll x yt zs).length = _
    rw [List.length_append, List.length_map, ih]
    simp [List.length_cons]
    ring

theorem cartProd_length (xs ys zs : List ℚ) :
    (cartProd xs ys zs).length = xs.length * (ys.length * zs.length) := by
  induction xs with
  | nil => simp [cartProd]
  | cons x xt ih =>
    show (pairAll x ys zs ++ cartProd xt ys zs).length = _
    rw [List.length_append, pairAll_length, ih]
    simp [List.length_cons]
    ring

theorem mem_pairAll (x : ℚ) (ys zs : List ℚ) (q : Point3) :
    q ∈ pairAll x ys zs ↔ q.1 = x ∧ q.2.1 ∈ ys ∧ q.2.2 ∈ zs := by
  induction ys with
  | nil => simp [pairAll]
  | cons y yt ih =>
    show q ∈ (zs.map fun z => (x, y, z)) ++ pairAll x yt zs ↔ _
    rw [List.mem_append, List.mem_map, ih]
    constructor
    · rintro (⟨z, hz, rfl⟩ | ⟨h1, h2, h3⟩)
      · exact ⟨rfl, by simp, hz⟩
      · exact ⟨h1, List.mem_cons_of_mem y h2, h3⟩
    · rintro ⟨h1, h2, h3⟩
      rcases List.mem_cons.mp h2 with h4 | h4
      · left
        refine ⟨q.2.2, h3, ?_⟩
        obtain ⟨a, b, c⟩ := q
        simp at h1 h4 ⊢
        exact ⟨h1.symm, h4.symm⟩
      · exact Or.inr ⟨h1, h4, h3⟩

theorem mem_cartProd (xs ys zs : List ℚ) (q : Point3) :
    q ∈ cartProd xs ys zs ↔ q.1 ∈ xs ∧ q.2.1 ∈ ys ∧ q.2.2 ∈ zs := by
  induction xs with
  | nil => simp [cartProd]
  | cons x xt ih =>
    show q ∈ pairAll x ys zs ++ cartProd xt ys zs ↔ _
    rw [List.mem_append, mem_pairAll, ih]
    constructor
    · rintro (⟨h1, h2, h3⟩ | ⟨h1, h2, h3⟩)
      · exact ⟨h1 ▸ List.mem_cons_self x xt, h2, h3⟩
      · exact ⟨List.mem_cons_of_mem x h1, h2, h3⟩
    · rintro ⟨h1, h2, h3⟩
      rcases List.mem_cons.mp h1 with h4 | h4
      · exact Or.inl ⟨h4, h2, h3⟩
      · exact Or.inr ⟨h4, h2, h3⟩

theorem pairAll_getElem (x : ℚ) (ys zs : List ℚ) (j k : Nat)
    (hj : j < ys.length) (hk : k < zs.length) (h : j * zs.length + k < (pairAll x ys zs).length) :
    (pairAll x ys zs)[j * zs.length + k] = (x, ys[j], zs[k]) := by
  induction ys generalizing j with
  | nil => simp at hj
  | cons y yt ih =>
    cases j with
    | zero =>
      have hk2 : 0 * zs.length + k < (zs.map fun z => (x, y, z)).length := by
        rw [List.length_map]
        omega
      show (((zs.map fun z => (x, y, z)) ++ pairAll x yt zs))[0 * zs.length + k] = _
      rw [List.getElem_append_left hk2]
      simp only [show 0 * zs.length + k = k by ring]
      rw [List.getElem_map]
      simp
    | succ j2 =>
      have hge : (zs.map fun z => (x, y, z)).length ≤ (j2 + 1) * zs.length + k := by
        rw [List.length_map, Nat.succ_mul]
        omega
      show (((zs.map fun z => (x, y, z)) ++ pairAll x yt zs))[(j2 + 1) * zs.length + k] = _
      rw [List.getElem_append_right hge]
      have hidx : (j2 + 1) * zs.length + k - (zs.map fun z => (x, y, z)).length
          = j2 * zs.length + k := by
        rw [List.length_map, Nat.succ_mul]
        omega
      have hj2 : j2 < yt.length := by
        simpa using Nat.lt_of_succ_lt_succ (by simpa using hj)
      have hin : j2 * zs.length + k < (pairAll x yt zs).length := by
        rw [pairAll_length]
        calc j2 * zs.length + k < j2 * zs.length + zs.length := by omega
          _ = (j2 + 1) * zs.length := by ring
          _ ≤ yt.length * zs.length := Nat.mul_le_mul_right _ hj2
      simp only [hidx]
      rw [ih j2 hj2 hin]
      simp

theorem cartProd_getElem (xs ys zs : List ℚ) (i j k : Nat)
    (hi : i < xs.length) (hj : j < ys.length) (hk : k < zs.length)
    (h : i * (ys.length * zs.length) + j * zs.length + k < (cartProd xs ys zs).length) :
    (cartProd xs ys zs)[i * (ys.length * zs.length) + j * zs.length + k]
      = (xs[i], ys[j], zs[k]) := by
  induction xs generalizing i with
  | nil => simp at hi
  | cons x xt ih =>
    cases i with
    | zero =>
      have hlt : 0 * (ys.length * zs.length) + j * zs.length + k
          < (pairAll x ys zs).length := by
        rw [pairAll_length]
        calc 0 * (ys.length * zs.length) + j * zs.length + k
            = j * zs.length + k := by ring_nf
          _ < j * zs.length + zs.length := by omega
          _ = (j + 1) * zs.length := by ring
          _ ≤ ys.length * zs.length := Nat.mul_le_mul_right _ hj
      show ((pairAll x ys zs ++ cartProd xt ys zs))[0 * (ys.length * zs.length) + j * zs.length + k] = _
      rw [List.getElem_append_left hlt]
      have h0 : 0 * (ys.length * zs.length) + j * zs.length + k = j * zs.length + k := by ring
      simp only [h0]
      rw [pairAll_getElem x ys zs j k hj hk (by rw [pairAll_length]; rw [pairAll_length] at hlt; omega)]
      simp
    | succ i2 =>
      have hge : (pairAll x ys zs).length ≤ (i2 + 1) * (ys.length * zs.length) + j * zs.length + k := by
        rw [pairAll_length, Nat.succ_mul]
        omega
      show ((pairAll x ys zs ++ cartProd xt ys zs))[(i2 + 1) * (ys.length * zs.length) + j * zs.length + k] = _
      rw [List.getElem_append_right hge]
      have hidx : (i2 + 1) * (ys.length * zs.length) + j * zs.length + k - (pairAll x ys zs).length
          = i2 * (ys.length * zs.length) + j * zs.length + k := by
        rw [pairAll_length, Nat.succ_mul]
        omega
      have hi2 : i2 < xt.length := by
        simpa using Nat.lt_of_succ_lt_succ (by simpa using hi)
      have hin : i2 * (ys.length * zs.length) + j * zs.length + k < (cartProd xt ys zs).length := by
        rw [cartProd_length]
        calc i2 * (ys.length * zs.length) + j * zs.length + k
            < i2 * (ys.length * zs.length) + (j * zs.length + zs.length) := by omega
          _ = i2 * (ys.length * zs.length) + (j + 1) * zs.length := by ring
          _ ≤ i2 * (ys.length * zs.length) + ys.length * zs.length :=
              Nat.add_le_add_left (Nat.mul_le_mul_right _ hj) _
          _ = (i2 + 1) * (ys.length * zs.length) := by ring
          _ ≤ xt.length * (ys.length * zs.length) := Nat.mul_le_mul_right _ hi2
      simp only [hidx]
      rw [ih i2 hi2 hin]
      simp

theorem pairAll_pairwise (x : ℚ) (ys zs : List ℚ)
    (hy : ys.Pairwise (fun a b => a < b)) (hz : zs.Pairwise (fun a b => a < b)) :
    (pairAll x ys zs).Pairwise keyLt := by
  induction ys with
  | nil =>
    simp [pairAll]
  | cons y yt ih =>
    rcases List.pairwise_cons.mp hy with ⟨hyall, hyt⟩
    show ((zs.map fun z => (x, y, z)) ++ pairAll x yt zs).Pairwise keyLt
    rw [List.pairwise_append]
    refine ⟨?_, ih hyt, ?_⟩
    · rw [List.pairwise_map]
      exact hz.imp fun hzz => Or.inr ⟨rfl, Or.inr ⟨rfl, hzz⟩⟩
    · intro a ha b hb
      rcases List.mem_map.mp ha with ⟨z, hz2, rfl⟩
      have hmb := (mem_pairAll x yt zs b).mp hb
      exact Or.inr ⟨hmb.1.symm, Or.inl (hmb.1 ▸ hyall b.2.1 hmb.2.1)⟩

theorem cartProd_pairwise (xs ys zs : List ℚ)
    (hx : xs.Pairwise (fun a b => a < b)) (hy : ys.Pairwise (fun a b => a < b))
    (hz : zs.Pairwise (fun a b => a < b)) :
    (cartProd xs ys zs).Pairwise keyLt := by
  induction xs with
  | nil => simp [cartProd]
  | cons x xt ih =>
    rcases List.pairwise_cons.mp hx with ⟨hxall, hxt⟩
    show (pairAll x ys zs ++ cartProd xt ys zs).Pairwise keyLt
    rw [List.pairwise_append]
    refine ⟨pairAll_pairwise x ys zs hy hz, ih hxt, ?_⟩
    intro a ha b hb
    have ha1 := ((mem_pairAll x ys zs a).mp ha).1
    have hb1 := ((mem_cartProd xt ys zs b).mp hb).1
    exact Or.inl (ha1 ▸ hxall b.1 hb1)

/-! ### Node exactness of the trilinear interpolation (claim C5) -/

theorem filter_lt_getElem_length (knots : List ℚ) (hs : knots.Pairwise (fun a b => a < b))
    (i : Nat) (hi : i < knots.length) :
    (knots.filter fun y => y < knots[i]).length = i := by
  induction knots generalizing i with
  | nil => simp at hi
  | cons kh rest ih =>
    rcases List.pairwise_cons.mp hs with ⟨hk, hrest⟩
    cases i with
    | zero =>
      have hnil : ((kh :: rest).filter fun y => y < (kh :: rest)[0]) = [] := by
        rw [List.filter_eq_nil_iff]
        intro a ha
        simp only [List.getElem_cons_zero, decide_eq_true_eq, not_lt]
        rcases List.mem_cons.mp ha with rfl | ha2
        · exact le_refl a
        · exact le_of_lt (hk a ha2)
      rw [hnil]
      rfl
    | succ i2 =>
      simp only [List.getElem_cons_succ]
      have hi2 : i2 < rest.length := by simpa using hi
      have hlt : kh < rest[i2] := hk _ (List.getElem_mem hi2)
      rw [List.filter_cons, if_pos (by simpa using hlt), List.length_cons, ih hrest i2 hi2]

theorem findCell_node (knots : List ℚ) (hs : knots.Pairwise (fun a b => a < b))
    (i : Nat) (hi : i < knots.length) :
    findCell knots knots[i] = if i = 0 then (0, 0) else (i - 1, 1) := by
  by_cases hn : knots.length ≤ 1
  · have hi0 : i = 0 := by omega
    subst hi0
    unfold findCell
    rw [if_pos hn]
    rfl
  · unfold findCell
    rw [if_neg hn]
    rw [filter_lt_getElem_length knots hs i hi]
    cases i with
    | zero =>
      have hmin : min (0 - 1) (knots.length - 2) = 0 := by
        simp
      simp only [hmin]
      rw [List.getD_eq_getElem knots 0 (by omega)]
      simp [sub_self, zero_div]
    | succ i2 =>
      have hmin : min (i2 + 1 - 1) (knots.length - 2) = i2 := by
        omega
      simp only [hmin]
      have hi2 : i2 < knots.length := by omega
      rw [List.getD_eq_getElem knots 0 hi2, List.getD_eq_getElem knots 0 (by omega : i2 + 1 < knots.length)]
      have hlt : knots[i2] < knots[i2 + 1] := by
        rcases List.pairwise_iff_get.mp hs ⟨i2, hi2⟩ ⟨i2 + 1, by omega⟩ (by simp) with h
        simpa using h
      rw [div_self (by linarith)]
      simp

theorem inBounds_getElem (knots : List ℚ) (hs : knots.Pairwise (fun a b => a < b))
    (i : Nat) (hi : i < knots.length) : inBounds knots knots[i] := by
  have hne : knots ≠ [] := by
    intro h
    rw [h] at hi
    simp at hi
  have hlen0 : 0 < knots.length := by omega
  have hlen1 : knots.length - 1 < knots.length := by omega
  constructor
  · have h0 : knots.head?.getD 0 = knots[0] := by
      cases knots with
      | nil => exact absurd rfl hne
      | cons a t => simp
    rw [h0]
    rcases Nat.eq_zero_or_pos i with rfl | hpos
    · exact le_refl _
    · exact le_of_lt (by
        rcases List.pairwise_iff_get.mp hs ⟨0, by omega⟩ ⟨i, hi⟩ hpos with h
        simpa using h)
  · have hlast : knots.getLast?.getD 0 = knots[knots.length - 1] := by
      rw [List.getLast?_eq_getElem?, List.getElem?_eq_getElem hlen1]
      rfl
    rw [hlast]
    rcases Nat.lt_or_ge i (knots.length - 1) with hlt | hge
    · exact le_of_lt (by
        rcases List.pairwise_iff_get.mp hs ⟨i, hi⟩ ⟨knots.length - 1, by omega⟩ hlt with h
        simpa using h)
    · have : i = knots.length - 1 := by omega
      subst this
      exact le_refl _

theorem flat_index_lt (i j k T G Z : Nat) (hi : i < T) (hj : j < G) (hk : k < Z) :
    i * (G * Z) + j * Z + k < T * (G * Z) := by
  calc i * (G * Z) + j * Z + k < i * (G * Z) + (j * Z + Z) := by omega
    _ = i * (G * Z) + (j + 1) * Z := by ring
    _ ≤ i * (G * Z) + G * Z := Nat.add_le_add_left (Nat.mul_le_mul_right _ hj) _
    _ = (i + 1) * (G * Z) := by ring
    _ ≤ T * (G * Z) := Nat.mul_le_mul_right _ hi

theorem trilinear_node (I : Interp) (i j k : Nat) (ct cg cz : Nat × ℚ)
    (hct : (ct.2 = 0 ∧ ct.1 = i) ∨ (ct.2 = 1 ∧ ct.1 + 1 = i))
    (hcg : (cg.2 = 0 ∧ cg.1 = j) ∨ (cg.2 = 1 ∧ cg.1 + 1 = j))
    (hcz : (cz.2 = 0 ∧ cz.1 = k) ∨ (cz.2 = 1 ∧ cz.1 + 1 = k)) :
    trilinear I ct cg cz = cellVal I i j k := by
  obtain ⟨c1, t1⟩ := ct
  obtain ⟨c2, t2⟩ := cg
  obtain ⟨c3, t3⟩ := cz
  simp only at hct hcg hcz
  rcases hct with ⟨rfl, rfl⟩ | ⟨rfl, rfl⟩ <;>
    rcases hcg with ⟨rfl, rfl⟩ | ⟨rfl, rfl⟩ <;>
      rcases hcz with ⟨rfl, rfl⟩ | ⟨rfl, rfl⟩ <;>
        norm_num [trilinear, zero_smul, one_smul, zero_mul, mul_zero, one_mul, mul_one,
          sub_self, sub_zero, add_zero, zero_add]

theorem eval_node (I : Interp) (i j k : Nat)
    (hx : I.xs.Pairwise (fun a b => a < b)) (hy : I.ys.Pairwise (fun a b => a < b))
    (hz : I.zs.Pairwise (fun a b => a < b))
    (hi : i < I.xs.length) (hj : j < I.ys.length) (hk : k < I.zs.length) :
    I.eval (I.xs[i], I.ys[j], I.zs[k])
      = Except.ok (I.vals.getD (i * (I.ys.length * I.zs.length) + j * I.zs.length + k)
          (0, 0, 0, 0)) := by
  unfold Interp.eval
  rw [if_pos ⟨inBounds_getElem _ hx i hi, inBounds_getElem _ hy j hj,
    inBounds_getElem _ hz k hk⟩]
  rw [findCell_node _ hx i hi, findCell_node _ hy j hj, findCell_node _ hz k hk]
  congr 1
  refine trilinear_node I i j k _ _ _ ?_ ?_ ?_
  · by_cases hi0 : i = 0
    · rw [if_pos hi0]
      exact Or.inl ⟨rfl, hi0.symm⟩
    · rw [if_neg hi0]
      exact Or.inr ⟨rfl, by omega⟩
  · by_cases hj0 : j = 0
    · rw [if_pos hj0]
      exact Or.inl ⟨rfl, hj0.symm⟩
    · rw [if_neg hj0]
      exact Or.inr ⟨rfl, by omega⟩
  · by_cases hk0 : k = 0
    · rw [if_pos hk0]
      exact Or.inl ⟨rfl, hk0.symm⟩
    · rw [if_neg hk0]
      exact Or.inr ⟨rfl, by omega⟩

theorem keyOf_joinRowFor (lr : List LineRow) (p : Point3) : keyOf (joinRowFor lr p) = p := by
  unfold joinRowFor
  cases hf : lr.filter (fun r => keyOf r = p) with
  | nil =>
    unfold keyOf sentinelRow
    rfl
  | cons r rest =>
    have hr : r ∈ lr.filter (fun r => keyOf r = p) := by
      rw [hf]
      exact List.mem_cons_self _ _
    have := (List.mem_filter.mp hr).2
    simpa using this

theorem rowLt_of_le_ne (a b : LineRow) (hle : rowLe a b) (hne : keyOf a ≠ keyOf b) :
    rowLt a b := by
  unfold rowLe at hle
  unfold rowLt keyLt keyOf
  rcases hle with h1 | ⟨e1, h1⟩
  · exact Or.inl h1
  · refine Or.inr ⟨e1, ?_⟩
    rcases h1 with h2 | ⟨e2, h2⟩
    · exact Or.inl h2
    · refine Or.inr ⟨e2, lt_of_le_of_ne h2 ?_⟩
      intro hz
      have hz2 : a.Z = b.Z := hz
      apply hne
      unfold keyOf
      rw [e1, e2, hz2]

/-- Claim C5: for every line identity and every observed grid coordinate,
the built interpolator evaluated exactly at that coordinate returns the node
value exactly — the line's original fitted 4-vector where the line was
fitted, and the all-sentinel vector `(-1000, -1000, -1000, -1000)` where it
was absent (`joinRowFor` is precisely that dichotomy), with no blending
between sentinel and real values.  Hypotheses: the builder succeeded (which
already enforces the rectangular reshape and strictly ascending axes), the
observed grid points are distinct, and the table holds at most one row per
(line, grid point) — the table invariant of the specification. -/
theorem interpolator_exact_at_grid_nodes (rows : List LineRow) (gp : List Point3) (c : ℚ)
    (itp : Interp) (p : Point3)
    (hbuild : create_interpolator rows gp c = Except.ok itp)
    (hnodup : gp.Nodup)
    (huniq : ∀ q ∈ gp,
      ((rows.filter fun r => r.center = c).filter fun r => keyOf r = q).length ≤ 1)
    (hp : p ∈ gp) :
    itp.eval p = Except.ok (rowVec (joinRowFor (rows.filter fun r => r.center = c) p)) := by
  unfold create_interpolator at hbuild
  by_cases h1 : (sortedJoin rows gp c).length
      = (axesT rows gp c).length * ((axesG rows gp c).length * (axesZ rows gp c).length)
  case neg =>
    rw [if_neg h1] at hbuild
    exact absurd hbuild (by simp)
  rw [if_pos h1] at hbuild
  by_cases h2 : (axesT rows gp c) ≠ [] ∧ (axesG rows gp c) ≠ [] ∧ (axesZ rows gp c) ≠ []
      ∧ (axesT rows gp c).Pairwise (fun a b => a < b)
      ∧ (axesG rows gp c).Pairwise (fun a b => a < b)
      ∧ (axesZ rows gp c).Pairwise (fun a b => a < b)
  case neg =>
    rw [if_neg h2] at hbuild
    exact absurd hbuild (by simp)
  rw [if_pos h2] at hbuild
  obtain ⟨hTne, hGne, hZne, hTpw, hGpw, hZpw⟩ := h2
  have hitp : itp = ⟨axesT rows gp c, axesG rows gp c, axesZ rows gp c,
      (sortedJoin rows gp c).map rowVec⟩ := (Except.ok.inj hbuild).symm
  subst hitp
  have hmerge : mergeRightFill (rows.filter fun r => r.center = c) gp
      = gp.map (joinRowFor (rows.filter fun r => r.center = c)) :=
    mergeRightFill_eq_map _ gp huniq
  have hperm : List.Perm (sortedJoin rows gp c)
      (gp.map (joinRowFor (rows.filter fun r => r.center = c))) := by
    unfold sortedJoin
    rw [hmerge] at *
    exact List.perm_insertionSort rowLe _
  have hkeys : (keyOf ∘ joinRowFor (rows.filter fun r => r.center = c)) = id :=
    funext fun q => keyOf_joinRowFor _ q
  have hkeysj : List.Perm ((sortedJoin rows gp c).map keyOf) gp := by
    have hmapped := hperm.map keyOf
    rwa [List.map_map, hkeys, List.map_id] at hmapped
  have hmem3 : ∀ q ∈ gp, q.1 ∈ axesT rows gp c ∧ q.2.1 ∈ axesG rows gp c
      ∧ q.2.2 ∈ axesZ rows gp c := by
    intro q hq
    have hqk : q ∈ (sortedJoin rows gp c).map keyOf := hkeysj.mem_iff.mpr hq
    rcases List.mem_map.mp hqk with ⟨r, hr, hkr⟩
    refine ⟨?_, ?_, ?_⟩
    · unfold axesT
      rw [mem_pdUnique]
      exact List.mem_map.mpr ⟨r, hr, by rw [← hkr]; rfl⟩
    · unfold axesG
      rw [mem_pdUnique]
      exact List.mem_map.mpr ⟨r, hr, by rw [← hkr]; rfl⟩
    · unfold axesZ
      rw [mem_pdUnique]
      exact List.mem_map.mpr ⟨r, hr, by rw [← hkr]; rfl⟩
  have hsub : gp ⊆ cartProd (axesT rows gp c) (axesG rows gp c) (axesZ rows gp c) := by
    intro q hq
    exact (mem_cartProd _ _ _ q).mpr (hmem3 q hq)
  have hlen2 : (cartProd (axesT rows gp c) (axesG rows gp c) (axesZ rows gp c)).length
      = gp.length := by
    rw [cartProd_length, ← h1]
    exact hperm.length_eq.trans (List.length_map _ _)
  have hpermgp : List.Perm gp
      (cartProd (axesT rows gp c) (axesG rows gp c) (axesZ rows gp c)) :=
    (List.subperm_of_subset hnodup hsub).perm_of_length_le (le_of_eq hlen2)
  have hnodk : ((sortedJoin rows gp c).map keyOf).Nodup := hkeysj.nodup_iff.mpr hnodup
  have hsort1 : List.Pairwise rowLt (sortedJoin rows gp c) := by
    have hle : List.Pairwise rowLe (sortedJoin rows gp c) :=
      List.sorted_insertionSort rowLe _
    have hne2 : List.Pairwise (fun a b => keyOf a ≠ keyOf b) (sortedJoin rows gp c) :=
      List.pairwise_map.mp hnodk
    exact (hle.and hne2).imp fun h => rowLt_of_le_ne _ _ h.1 h.2
  have hsort2 : List.Pairwise rowLt
      ((cartProd (axesT rows gp c) (axesG rows gp c) (axesZ rows gp c)).map
        (joinRowFor (rows.filter fun r => r.center = c))) := by
    rw [List.pairwise_map]
    refine (cartProd_pairwise _ _ _ hTpw hGpw hZpw).imp ?_
    intro a b hab
    unfold rowLt
    rw [keyOf_joinRowFor, keyOf_joinRowFor]
    exact hab
  have hseq : sortedJoin rows gp c
      = (cartProd (axesT rows gp c) (axesG rows gp c) (axesZ rows gp c)).map
        (joinRowFor (rows.filter fun r => r.center = c)) :=
    List.eq_of_perm_of_sorted (hperm.trans (hpermgp.map _)) hsort1 hsort2
  obtain ⟨hpT, hpG, hpZ⟩ := hmem3 p hp
  obtain ⟨i, hi, hxi⟩ := List.getElem_of_mem hpT
  obtain ⟨j, hj, hyj⟩ := List.getElem_of_mem hpG
  obtain ⟨k, hk, hzk⟩ := List.getElem_of_mem hpZ
  have heval := eval_node ⟨axesT rows gp c, axesG rows gp c, axesZ rows gp c,
    (sortedJoin rows gp c).map rowVec⟩ i j k hTpw hGpw hZpw hi hj hk
  have hpeq : ((axesT rows gp c)[i], (axesG rows gp c)[j], (axesZ rows gp c)[k]) = p := by
    rw [hxi, hyj, hzk]
  rw [hpeq] at heval
  rw [heval]
  congr 1
  have hflat : i * ((axesG rows gp c).length * (axesZ rows gp c).length)
      + j * (axesZ rows gp c).length + k < (sortedJoin rows gp c).length := by
    rw [h1]
    exact flat_index_lt i j k _ _ _ hi hj hk
  show ((sortedJoin rows gp c).map rowVec).getD _ (0, 0, 0, 0) = _
  rw [List.getD_eq_getElem _ _ (by
    rw [List.length_map]
    exact hflat)]
  rw [List.getElem_map]
  have hflatc : i * ((axesG rows gp c).length * (axesZ rows gp c).length)
      + j * (axesZ rows gp c).length + k
      < (cartProd (axesT rows gp c) (axesG rows gp c) (axesZ rows gp c)).length := by
    rw [cartProd_length]
    exact flat_index_lt i j k _ _ _ hi hj hk
  have hsj : (sortedJoin rows gp c)[i * ((axesG rows gp c).length * (axesZ rows gp c).length)
      + j * (axesZ rows gp c).length + k]
      = joinRowFor (rows.filter fun r => r.center = c)
          ((cartProd (axesT rows gp c) (axesG rows gp c) (axesZ rows gp c))[
            i * ((axesG rows gp c).length * (axesZ rows gp c).length)
            + j * (axesZ rows gp c).length + k]) := by
    have hstep := List.getElem_of_eq hseq hflat
    rw [List.getElem_map] at hstep
    exact hstep
  rw [hsj, cartProd_getElem _ _ _ i j k hi hj hk hflatc, hpeq]

/-- Witness for C5 on the 2×1×1 demo grid: the built interpolator returns
the fitted 4-vector at the fitted node `(5000, 4, 0)` and the sentinel fill
at the hole `(6000, 4, 0)`. -/
theorem interpolator_exact_at_grid_nodes_wit :
    create_interpolator lrD gpE 100 = Except.ok demoItp
    ∧ demoItp.eval (5000, 4, 0)
        = Except.ok (rowVec (joinRowFor (lrD.filter fun r => r.center = 100) (5000, 4, 0)))
    ∧ demoItp.eval (6000, 4, 0)
        = Except.ok (rowVec (joinRowFor (lrD.filter fun r => r.center = 100) (6000, 4, 0))) :=
  ⟨by decide,
   interpolator_exact_at_grid_nodes lrD gpE 100 demoItp (5000, 4, 0)
     (by decide) (by decide) (by decide) (by decide),
   interpolator_exact_at_grid_nodes lrD gpE 100 demoItp (6000, 4, 0)
     (by decide) (by decide) (by decide) (by decide)⟩
